import Mathlib

/-!
Shallow embedding of the K8s-Resource-Inspector rule core: the rule loader
(`internal/rules/loader.go`, `internal/rules/types.go`), the evaluation engine
with its four validators (the `rules` package engine source), and the node/pod
analyzers (`internal/analyzer/node/analyzer.go`, `internal/analyzer/pod/analyzer.go`,
plus the earlier node-analyzer variant shipped in the repository).

Go `interface{}` values that flow through the engine are modelled by the
inductive `GoValue`; numbers are modelled by `Rat` (every numeric value the
engine compares here is a small decimal, where float64 and exact rational
comparison agree). Filesystem reads and YAML decoding are modelled as explicit
inputs to the loader's state transition. The regular-expression matcher used by
the string validator's `matches` operator is passed in as a parameter: no
property below depends on the regex language.
-/

namespace KRI

/-- Dynamic (interface\x7b\x7d-typed) Go value as manipulated by the engine:
nil, bool, int, float64, string, map[string]string, map[string]interface\x7b\x7d,
and map[interface\x7b\x7d]interface\x7b\x7d. Maps are association lists (Go map
keys are unique; iteration order is abstracted). -/
inductive GoValue where
  | vNil
  | vBool (b : Bool)
  | vInt (n : Int)
  | vFloat (q : Rat)
  | vStr (s : String)
  | vMapSS (m : List (String × String))
  | vMapSI (m : List (String × GoValue))
  | vMapII (m : List (GoValue × GoValue))

/-- Decimal digits of the fractional part of num/den (num < den), with fuel. -/
def fracDigits (den : Nat) : Nat → Nat → List Char
  | _, 0 => []
  | num, fuel + 1 =>
    if num = 0 then []
    else Char.ofNat (48 + (num * 10) / den) :: fracDigits den ((num * 10) % den) fuel

/-- Rendering of a float64 value as Go fmt's %v prints it: integral values
without a decimal point, otherwise a decimal expansion. -/
def ratRender (q : Rat) : String :=
  if q.den = 1 then toString q.num
  else
    let sign := if q.num < 0 then "-" else ""
    let na := q.num.natAbs
    sign ++ toString (na / q.den) ++ "." ++ String.mk (fracDigits q.den (na % q.den) 20)

/-- Entries of a map[string]string rendered the way Go fmt's %v separates them. -/
def ssEntries : List (String × String) → String
  | [] => ""
  | [(k, v)] => k ++ ":" ++ v
  | (k, v) :: rest => k ++ ":" ++ v ++ " " ++ ssEntries rest

mutual

/-- Model of Go fmt.Sprintf("%v", value) on the shapes `GoValue` covers. -/
def goSprintV : GoValue → String
  | .vNil => "<nil>"
  | .vBool b => if b then "true" else "false"
  | .vInt n => toString n
  | .vFloat q => ratRender q
  | .vStr s => s
  | .vMapSS m => "map[" ++ ssEntries m ++ "]"
  | .vMapSI m => "map[" ++ siEntries m ++ "]"
  | .vMapII m => "map[" ++ iiEntries m ++ "]"

/-- Entries of a map[string]interface\x7b\x7d under %v. -/
def siEntries : List (String × GoValue) → String
  | [] => ""
  | [(k, v)] => k ++ ":" ++ goSprintV v
  | (k, v) :: rest => k ++ ":" ++ goSprintV v ++ " " ++ siEntries rest

/-- Entries of a map[interface\x7b\x7d]interface\x7b\x7d under %v. -/
def iiEntries : List (GoValue × GoValue) → String
  | [] => ""
  | [(k, v)] => goSprintV k ++ ":" ++ goSprintV v
  | (k, v) :: rest => goSprintV k ++ ":" ++ goSprintV v ++ " " ++ iiEntries rest

end

/-- Numeric value of a list of decimal digit characters. -/
def digitsVal (cs : List Char) : Nat :=
  cs.foldl (fun a c => a * 10 + (c.toNat - 48)) 0

/-- Model of fmt.Sscanf(v, "%f", &f) on a decimal literal: optional sign,
integer digits, optional fractional digits; input after the number is ignored
by the scan; no digits at all is a scan failure. (The numeric strings the
rules engine meets are plain decimals.) -/
def parseGoFloat (s : String) : Option Rat :=
  let cs := s.toList
  let signed : Bool × List Char :=
    match cs with
    | '-' :: r => (true, r)
    | '+' :: r => (false, r)
    | _ => (false, cs)
  let ip := signed.2.takeWhile Char.isDigit
  let rest := signed.2.dropWhile Char.isDigit
  let fp : List Char :=
    match rest with
    | '.' :: r => r.takeWhile Char.isDigit
    | _ => []
  if ip.isEmpty && fp.isEmpty then none
  else
    let mag : Rat := (digitsVal ip : Rat) + (digitsVal fp : Rat) / ((10 : Rat) ^ fp.length)
    some (if signed.1 then -mag else mag)

/-- Model of toFloat64: converts a dynamic value to float64. The explicit type
switch covers floats, the integer widths and numeric strings; the reflection
fallback accepts the remaining integer kinds and rejects everything else
(bools, maps, nil). All integer widths collapse onto `vInt` here. -/
def toFloat64 : GoValue → Except String Rat
  | .vFloat q => .ok q
  | .vInt n => .ok (n : Rat)
  | .vStr s =>
    match parseGoFloat s with
    | some q => .ok q
    | none => .error ("无法将字符串转换为浮点数: " ++ s)
  | v => .error ("不支持的类型: " ++ goSprintV v)

/-- Model of toString: nil fails; a string is itself; every other value is
rendered with %v. -/
def goToString : GoValue → Option String
  | .vNil => none
  | .vStr s => some s
  | v => some (goSprintV v)

/-- ASCII lower-casing as strings.ToLower acts on the spellings toBool accepts. -/
def goToLower (s : String) : String :=
  String.mk (s.toList.map fun c =>
    if 'A' ≤ c && c ≤ 'Z' then Char.ofNat (c.toNat + 32) else c)

/-- Model of toBool: a bool is itself, an int is its non-zeroness, a string is
matched case-insensitively against the truthy/falsy spellings, everything else
(including nil) fails. -/
def toBool : GoValue → Option Bool
  | .vBool b => some b
  | .vInt n => some (n != 0)
  | .vStr s =>
    let lower := goToLower s
    if lower == "true" || lower == "yes" || lower == "1" then some true
    else if lower == "false" || lower == "no" || lower == "0" then some false
    else none
  | _ => none

/-- Whitespace as strings.TrimSpace strips it from the label values in play. -/
def isGoSpace (c : Char) : Bool :=
  c == ' ' || c == '\t' || c == '\n' || c == '\x0b' || c == '\x0c' || c == '\r'

/-- Model of strings.TrimSpace: drop leading and trailing whitespace. -/
def goTrimSpace (s : String) : String :=
  String.mk (((s.toList.dropWhile isGoSpace).reverse.dropWhile isGoSpace).reverse)

/-- Model of strings.Contains: sub occurs as a contiguous substring of s. -/
def goContains (s sub : String) : Bool :=
  decide (sub.toList <:+: s.toList)

/-- RuleCondition from internal/rules/types.go. `Threshold` is the default
threshold (interface\x7b\x7d, `vNil` when absent); `Thresholds` is the optional
per-environment map (none models a nil Go map). `Duration` is accepted in the
schema but never evaluated; it is carried as an opaque count. -/
structure RuleCondition where
  Metric : String
  Operator : String
  Threshold : GoValue
  Thresholds : Option (List (String × GoValue))
  Duration : Option Int

/-- Rule from internal/rules/types.go. The creation/update timestamps are pure
metadata read by nothing in the core and are omitted. -/
structure Rule where
  ID : String
  Name : String
  Description : String
  Category : String
  Severity : String
  Condition : RuleCondition
  Remediation : String
  Enabled : Bool

/-- RuleResult from internal/rules/types.go. `EvaluatedAt` is the wall-clock
stamp time.Now() and is not modelled. -/
structure RuleResult where
  RuleID : String
  RuleName : String
  Passed : Bool
  ActualValue : GoValue
  ExpectedValue : GoValue
  Message : String
  Remediation : String
  Severity : String

/-- RuleFilter from internal/rules/types.go. -/
structure RuleFilter where
  Categories : List String
  Severities : List String
  Enabled : Option Bool

/-- The global config block of a rules document. -/
structure ConfigBlock where
  AutoReload : Bool
  ReloadInterval : String
  Environment : String

/-- RulesConfig: a parsed rules document. -/
structure RulesConfig where
  APIVersion : String
  Kind : String
  Config : ConfigBlock
  ClusterEnvironments : List (String × String)
  Rules : List Rule

/-- RuleLoader state: the last-modified marker of the file behind the loaded
config (mod-times are abstract ticks) and the loaded config, nil before the
first successful load. -/
structure RuleLoader where
  lastModified : Nat
  config : Option RulesConfig

/-- A freshly constructed loader (NewRuleLoader): nothing loaded yet. -/
def loaderInit : RuleLoader := { lastModified := 0, config := none }

/-- Model of matchesFilter from internal/rules/loader.go: AND across the three
dimensions, OR within the category and severity lists, each list constraining
only when non-empty, and the enabled flag only when the pointer is non-nil. -/
def matchesFilter (rule : Rule) (filter : RuleFilter) : Bool :=
  (filter.Categories.isEmpty || filter.Categories.contains rule.Category) &&
  (filter.Severities.isEmpty || filter.Severities.contains rule.Severity) &&
  (match filter.Enabled with
   | none => true
   | some b => rule.Enabled == b)

/-- Model of RuleLoader.GetRules: nil config yields the empty result, otherwise
the loaded rules that match the filter, in document order. -/
def getRules (rl : RuleLoader) (filter : RuleFilter) : List Rule :=
  match rl.config with
  | none => []
  | some cfg => cfg.Rules.filter (fun r => matchesFilter r filter)

/-- Model of RuleLoader.GetEnvironment: exact cluster entry, else the reserved
"default" entry, else the global config environment when non-empty, else "prod". -/
def getEnvironment (rl : RuleLoader) (clusterName : String) : String :=
  match rl.config with
  | none => "prod"
  | some cfg =>
    match cfg.ClusterEnvironments.lookup clusterName with
    | some env => env
    | none =>
      match cfg.ClusterEnvironments.lookup "default" with
      | some env => env
      | none => if cfg.Config.Environment != "" then cfg.Config.Environment else "prod"

/-- Length of the per-environment thresholds map, with a nil map counting 0. -/
def thresholdsLen (c : RuleCondition) : Nat :=
  match c.Thresholds with
  | none => 0
  | some m => m.length

/-- Model of isValidOperator from internal/rules/loader.go. -/
def isValidOperator (op : String) : Bool :=
  [">", ">=", "<", "<=", "==", "!=", "contains", "matches", "has_non_empty"].contains op

/-- Test for a nil interface value (Threshold == nil in Go). -/
def isNilValue : GoValue → Bool
  | .vNil => true
  | _ => false

/-- Per-rule structural validation inside validateConfig, checks in source
order: id, name, category, severity, condition.metric, condition.operator, at
least one of threshold/thresholds, then operator membership. The index i is
the 1-based position used by the first error message. -/
def validateRule (i : Nat) (rule : Rule) : Except String Unit :=
  if rule.ID == "" then .error ("第 " ++ toString i ++ " 条规则缺少ID")
  else if rule.Name == "" then .error ("规则 \x27" ++ rule.ID ++ "\x27 缺少名称")
  else if rule.Category == "" then .error ("规则 \x27" ++ rule.ID ++ "\x27 缺少类别")
  else if rule.Severity == "" then .error ("规则 \x27" ++ rule.ID ++ "\x27 缺少严重程度")
  else if rule.Condition.Metric == "" then .error ("规则 \x27" ++ rule.ID ++ "\x27 缺少指标")
  else if rule.Condition.Operator == "" then .error ("规则 \x27" ++ rule.ID ++ "\x27 缺少操作符")
  else if isNilValue rule.Condition.Threshold && (thresholdsLen rule.Condition == 0) then
    .error ("规则 \x27" ++ rule.ID ++ "\x27 缺少阈值")
  else if !isValidOperator rule.Condition.Operator then
    .error ("规则 \x27" ++ rule.ID ++ "\x27 包含不支持的操作符: " ++ rule.Condition.Operator)
  else .ok ()

/-- Validation of the rule list, first defect wins. -/
def validateRulesFrom : Nat → List Rule → Except String Unit
  | _, [] => .ok ()
  | i, r :: rest =>
    match validateRule i r with
    | .error e => .error e
    | .ok _ => validateRulesFrom (i + 1) rest

/-- Model of validateConfig from internal/rules/loader.go: document markers
first (non-empty apiVersion, non-empty kind, kind exactly "RulesConfig"), then
every rule in order. -/
def validateConfig (cfg : RulesConfig) : Except String Unit :=
  if cfg.APIVersion == "" then .error "缺少apiVersion字段"
  else if cfg.Kind == "" then .error "缺少kind字段"
  else if cfg.Kind != "RulesConfig" then .error ("不支持的kind: " ++ cfg.Kind)
  else validateRulesFrom 1 cfg.Rules

/-- Outcome of os.Stat on the rules file. -/
inductive StatResult where
  | missing
  | statError
  | modTime (t : Nat)

/-- Outcome of os.ReadFile plus yaml.Unmarshal on the rules file. -/
inductive ReadOutcome where
  | readFail
  | parseFail
  | parsed (cfg : RulesConfig)

/-- Model of RuleLoader.LoadRules as a state transition: stat failures abort;
an unchanged mod-time with a loaded config is the idempotent fast path; read,
parse and validation failures abort; only full success installs the new config
and mod-time. The returned state is the loader after the call. -/
def loadRules (rl : RuleLoader) (stat : StatResult) (doc : ReadOutcome) :
    RuleLoader × Except String Unit :=
  match stat with
  | .missing => (rl, .error "规则文件不存在")
  | .statError => (rl, .error "检查规则文件失败")
  | .modTime t =>
    if rl.config.isSome && t == rl.lastModified then (rl, .ok ())
    else
      match doc with
      | .readFail => (rl, .error "读取规则文件失败")
      | .parseFail => (rl, .error "解析规则文件YAML失败")
      | .parsed cfg =>
        match validateConfig cfg with
        | .error e => (rl, .error ("验证规则配置失败: " ++ e))
        | .ok _ => ({ lastModified := t, config := some cfg }, .ok ())

/-- Model of Engine.getThresholdValue: with a non-nil per-environment map, the
entry for the environment, else the entry for "default", else the single
default threshold. -/
def getThresholdValue (condition : RuleCondition) (env : String) : GoValue :=
  match condition.Thresholds with
  | some m =>
    match m.lookup env with
    | some threshold => threshold
    | none =>
      match m.lookup "default" with
      | some threshold => threshold
      | none => condition.Threshold
  | none => condition.Threshold

/-- Threshold selection block inlined in NumericValidator.Validate: guarded by
len(Thresholds) > 0 instead of a nil test, environment entry, else "default"
entry, else the single threshold. -/
def numericThreshold (condition : RuleCondition) (env : String) : GoValue :=
  if thresholdsLen condition > 0 then
    match (condition.Thresholds.getD []).lookup env with
    | some v => v
    | none =>
      match (condition.Thresholds.getD []).lookup "default" with
      | some v => v
      | none => condition.Threshold
  else condition.Threshold

/-- Threshold selection block inlined in StringValidator.Validate, identical
text to the numeric one. -/
def stringThreshold (condition : RuleCondition) (env : String) : GoValue :=
  if thresholdsLen condition > 0 then
    match (condition.Thresholds.getD []).lookup env with
    | some v => v
    | none =>
      match (condition.Thresholds.getD []).lookup "default" with
      | some v => v
      | none => condition.Threshold
  else condition.Threshold

/-- Threshold selection block inlined in BooleanValidator.Validate, identical
text to the numeric one. -/
def booleanThreshold (condition : RuleCondition) (env : String) : GoValue :=
  if thresholdsLen condition > 0 then
    match (condition.Thresholds.getD []).lookup env with
    | some v => v
    | none =>
      match (condition.Thresholds.getD []).lookup "default" with
      | some v => v
      | none => condition.Threshold
  else condition.Threshold

/-- Threshold selection block inlined in MapValidator.Validate, identical text
to the numeric one. -/
def mapThreshold (condition : RuleCondition) (env : String) : GoValue :=
  if thresholdsLen condition > 0 then
    match (condition.Thresholds.getD []).lookup env with
    | some v => v
    | none =>
      match (condition.Thresholds.getD []).lookup "default" with
      | some v => v
      | none => condition.Threshold
  else condition.Threshold

/-- Model of NumericValidator.Validate: both operands coerced to float64, then
the six relational operators; anything else is unsupported. -/
def numericValidate (actualValue : GoValue) (condition : RuleCondition) (env : String) :
    Except String Bool :=
  match toFloat64 actualValue with
  | .error e => .error ("无法将实际值转换为数字: " ++ e)
  | .ok actualFloat =>
    match toFloat64 (numericThreshold condition env) with
    | .error e => .error ("无法将阈值转换为数字: " ++ e)
    | .ok thresholdFloat =>
      match condition.Operator with
      | ">" => .ok (decide (actualFloat > thresholdFloat))
      | ">=" => .ok (decide (actualFloat ≥ thresholdFloat))
      | "<" => .ok (decide (actualFloat < thresholdFloat))
      | "<=" => .ok (decide (actualFloat ≤ thresholdFloat))
      | "==" => .ok (decide (actualFloat = thresholdFloat))
      | "!=" => .ok (decide (actualFloat ≠ thresholdFloat))
      | op => .error ("数值类型不支持的操作符: " ++ op)

/-- Regex matcher shape of regexp.MatchString (pattern, then subject). -/
def Rx : Type := String → String → Except String Bool

/-- Model of StringValidator.Validate: both operands coerced to strings, then
equality, inequality, substring containment, or a regex match delegated to the
matcher parameter. -/
def stringValidate (rx : Rx) (actualValue : GoValue) (condition : RuleCondition)
    (env : String) : Except String Bool :=
  match goToString actualValue with
  | none => .error "无法将实际值转换为字符串"
  | some actualStr =>
    match goToString (stringThreshold condition env) with
    | none => .error "无法将阈值转换为字符串"
    | some thresholdStr =>
      match condition.Operator with
      | "==" => .ok (actualStr == thresholdStr)
      | "!=" => .ok (actualStr != thresholdStr)
      | "contains" => .ok (goContains actualStr thresholdStr)
      | "matches" =>
        match rx thresholdStr actualStr with
        | .error e => .error ("正则表达式匹配失败: " ++ e)
        | .ok matched => .ok matched
      | op => .error ("字符串类型不支持的操作符: " ++ op)

/-- Model of BooleanValidator.Validate: both operands coerced to bool, then
equality or inequality only. -/
def booleanValidate (actualValue : GoValue) (condition : RuleCondition) (env : String) :
    Except String Bool :=
  match toBool actualValue with
  | none => .error "无法将实际值转换为布尔值"
  | some actualBool =>
    match toBool (booleanThreshold condition env) with
    | none => .error "无法将阈值转换为布尔值"
    | some thresholdBool =>
      match condition.Operator with
      | "==" => .ok (actualBool == thresholdBool)
      | "!=" => .ok (actualBool != thresholdBool)
      | op => .error ("布尔类型不支持的操作符: " ++ op)

/-- Model of MapValidator.validateEquals: every expected key present in the
actual map with an equal value. -/
def validateEquals (actual expected : List (String × String)) : Bool :=
  expected.all fun kv =>
    match actual.lookup kv.1 with
    | some actualVal => actualVal == kv.2
    | none => false

/-- Model of MapValidator.validateContains: every expected key present in the
actual map with an equal value. -/
def validateContains (actual expected : List (String × String)) : Bool :=
  expected.all fun kv =>
    match actual.lookup kv.1 with
    | some actualVal => actualVal == kv.2
    | none => false

/-- Model of MapValidator.validateHasNonEmpty: every expected key present in
the actual map with a value that is non-empty after trimming whitespace. -/
def validateHasNonEmpty (actual expected : List (String × String)) : Bool :=
  expected.all fun kv =>
    match actual.lookup kv.1 with
    | some actualVal => !(goTrimSpace actualVal == "")
    | none => false

/-- Model of MapValidator.convertToStringMap: a string-to-string map is kept,
string-keyed and untyped maps have every key/value rendered with %v, anything
else fails. -/
def convertToStringMap : GoValue → Except String (List (String × String))
  | .vMapSS m => .ok m
  | .vMapSI m => .ok (m.map fun kv => (kv.1, goSprintV kv.2))
  | .vMapII m => .ok (m.map fun kv => (goSprintV kv.1, goSprintV kv.2))
  | v => .error ("不支持的threshold类型: " ++ goSprintV v)

/-- Model of MapValidator.Validate: the actual value must already be a
map[string]string; the resolved threshold is normalized to a string map; then
the three map operators dispatch. -/
def mapValidate (actualValue : GoValue) (condition : RuleCondition) (env : String) :
    Except String Bool :=
  match actualValue with
  | .vMapSS actual =>
    match convertToStringMap (mapThreshold condition env) with
    | .error e => .error ("threshold类型转换失败: " ++ e)
    | .ok expected =>
      match condition.Operator with
      | "==" => .ok (validateEquals actual expected)
      | "contains" => .ok (validateContains actual expected)
      | "has_non_empty" => .ok (validateHasNonEmpty actual expected)
      | op => .error ("map类型不支持的操作符: " ++ op)
  | _ => .error "actualValue类型断言失败，期望map[string]string"

/-- Floor of a rational as an integer. -/
def ratFloor (q : Rat) : Int := Int.fdiv q.num (q.den : Int)

/-- Nearest integer with ties to even, the rounding fmt uses for %.2f. -/
def roundHalfEven (x : Rat) : Int :=
  let f := ratFloor x
  let r := x - (f : Rat)
  if r < (1 : Rat) / 2 then f
  else if r > (1 : Rat) / 2 then f + 1
  else if f % 2 == 0 then f else f + 1

/-- Rendering with two decimal places as fmt.Sprintf("%.2f", f). -/
def formatF2 (q : Rat) : String :=
  let r := roundHalfEven (q * 100)
  let sign := if r < 0 then "-" else ""
  let a := r.natAbs
  sign ++ toString (a / 100) ++ "." ++ (if a % 100 < 10 then "0" else "") ++ toString (a % 100)

/-- Model of NumericValidator.FormatValue: an integral float renders as an
integer, a fractional one with two decimals, a non-numeric value with %v. -/
def numericFormatValue (value : GoValue) : String :=
  match toFloat64 value with
  | .ok f => if f.den = 1 then toString f.num else formatF2 f
  | .error _ => goSprintV value

/-- Model of StringValidator.FormatValue. -/
def stringFormatValue (value : GoValue) : String :=
  match goToString value with
  | some s => s
  | none => goSprintV value

/-- Model of BooleanValidator.FormatValue. -/
def booleanFormatValue (value : GoValue) : String :=
  match toBool value with
  | some b => if b then "true" else "false"
  | none => goSprintV value

/-- Model of MapValidator.FormatValue. -/
def mapFormatValue (value : GoValue) : String := goSprintV value

/-- The four validator implementations registered by
Engine.registerDefaultValidators, as a closed kind. -/
inductive ValidatorKind where
  | vkNumeric
  | vkString
  | vkBoolean
  | vkMap

/-- Model of Engine.GetValidator over the default registry: the four value-kind
names registered at construction; any other name is unknown. -/
def getValidator (metricType : String) : Except String ValidatorKind :=
  if metricType == "numeric" then .ok .vkNumeric
  else if metricType == "string" then .ok .vkString
  else if metricType == "boolean" then .ok .vkBoolean
  else if metricType == "map" then .ok .vkMap
  else .error ("未知的指标类型: " ++ metricType)

/-- Dispatch of Validator.Validate over the registered implementations. -/
def validatorValidate (rx : Rx) : ValidatorKind → GoValue → RuleCondition → String →
    Except String Bool
  | .vkNumeric, actual, condition, env => numericValidate actual condition env
  | .vkString, actual, condition, env => stringValidate rx actual condition env
  | .vkBoolean, actual, condition, env => booleanValidate actual condition env
  | .vkMap, actual, condition, env => mapValidate actual condition env

/-- Dispatch of Validator.FormatValue over the registered implementations. -/
def validatorFormatValue : ValidatorKind → GoValue → String
  | .vkNumeric, v => numericFormatValue v
  | .vkString, v => stringFormatValue v
  | .vkBoolean, v => booleanFormatValue v
  | .vkMap, v => mapFormatValue v

/-- Keys mentioned by the has_non_empty failure phrase: the code ranges over
the rule's default threshold when it is a string-keyed map and collects every
key of that map (the loop consults neither the actual value nor the resolved
threshold). -/
def hasNonEmptyMessageKeys (threshold : GoValue) : Option (List String) :=
  match threshold with
  | .vMapSI m => some (m.map Prod.fst)
  | _ => none

/-- Space-separated rendering of a list of strings as %v prints []string. -/
def joinSpace : List String → String
  | [] => ""
  | [s] => s
  | s :: rest => s ++ " " ++ joinSpace rest

/-- The expectation phrase of the has_non_empty failure message: one key gets
the singular phrase, any other number the %v-listed form. -/
def hasNonEmptyPhrase : List String → String
  | [k] => "应包含标签 \x27" ++ k ++ "\x27 且值不为空"
  | ks => "应包含标签 [" ++ joinSpace ks ++ "] 且值不为空"

/-- Model of Engine.formatResultMessage: a pass message carrying the formatted
value, or a failure message whose expectation phrase depends on the operator;
has_non_empty is special-cased on the rule's default threshold map. -/
def formatResultMessage (rule : Rule) (passed : Bool)
    (formattedValue formattedThreshold : String) : String :=
  if passed then rule.Name ++ ": 检查通过 (值: " ++ formattedValue ++ ")"
  else
    let expectation :=
      match rule.Condition.Operator with
      | ">" => "应大于 " ++ formattedThreshold
      | ">=" => "应大于等于 " ++ formattedThreshold
      | "<" => "应小于 " ++ formattedThreshold
      | "<=" => "应小于等于 " ++ formattedThreshold
      | "==" => "应等于 " ++ formattedThreshold
      | "!=" => "不应等于 " ++ formattedThreshold
      | "contains" => "应包含 " ++ formattedThreshold
      | "has_non_empty" =>
        match hasNonEmptyMessageKeys rule.Condition.Threshold with
        | some missingKeys => hasNonEmptyPhrase missingKeys
        | none => "应包含指定标签且值不为空"
      | "matches" => "应匹配正则表达式 " ++ formattedThreshold
      | op => "不满足条件 " ++ op ++ " " ++ formattedThreshold
    rule.Name ++ ": 检查失败, 值 " ++ formattedValue ++ " " ++ expectation

/-- Engine state: the loader it owns and the mutable current environment. The
validator registry is the default one installed at construction. -/
structure Engine where
  loader : RuleLoader
  environment : String

/-- Model of Engine.GetRules: delegation to the loader. -/
def engineGetRules (e : Engine) (filter : RuleFilter) : List Rule :=
  getRules e.loader filter

/-- Model of Engine.EvaluateRule: a disabled rule is an error; the validator is
looked up by the caller-declared value kind; the threshold for the engine's
environment is resolved; the validator verdict is wrapped into a RuleResult
whose Passed is the validator's boolean and whose Message is built from the
operator and the formatted operands. -/
def EvaluateRule (e : Engine) (rx : Rx) (rule : Rule) (metricType : String)
    (actualValue : GoValue) : Except String RuleResult :=
  if !rule.Enabled then .error ("规则未启用: " ++ rule.Name)
  else
    match getValidator metricType with
    | .error err => .error err
    | .ok validator =>
      let threshold := getThresholdValue rule.Condition e.environment
      match validatorValidate rx validator actualValue rule.Condition e.environment with
      | .error err => .error ("验证失败: " ++ err)
      | .ok passed =>
        .ok {
          RuleID := rule.ID
          RuleName := rule.Name
          Passed := passed
          ActualValue := actualValue
          ExpectedValue := threshold
          Message := formatResultMessage rule passed
            (validatorFormatValue validator actualValue)
            (validatorFormatValue validator threshold)
          Remediation := rule.Remediation
          Severity := rule.Severity }

/-- AnalysisItem as declared identically by the node and pod analyzer
packages: the per-rule verdict surfaced to reporting, with display strings for
metric, value and threshold. -/
structure AnalysisItem where
  RuleID : String
  Name : String
  Category : String
  Severity : String
  Metric : String
  Value : String
  Threshold : String
  Passed : Bool
  Description : String
  Remediation : String

/-- The slice of models.ResourceMetric the resource-metric analysis reads: the
utilization and allocation-rate percentages (both float64). -/
structure ResourceMetric where
  Utilization : Rat
  AllocationRate : Rat

/-- Severity deduction table shared by both calculateHealthScore variants. -/
def deductions : List (String × Int) :=
  [("critical", 20), ("warning", 10), ("info", 5)]

namespace NodeAnalyzer

/-- Model of NodeAnalyzer.analyzeResourceMetric from
internal/analyzer/node/analyzer.go: node-category rules are fetched, the
utilization and allocation-rate readings are checked against every rule whose
condition metric matches, per-rule evaluation errors are skipped, and each
result is wrapped into an AnalysisItem whose Passed is the negation of the
engine's Passed. -/
def analyzeResourceMetric (na : Engine) (rx : Rx) (metricName : String)
    (metric : ResourceMetric) : List AnalysisItem :=
  let allRules := engineGetRules na { Categories := ["node"], Severities := [], Enabled := none }
  let metricChecks := [(metricName ++ "_utilization", metric.Utilization),
                       (metricName ++ "_allocation_rate", metric.AllocationRate)]
  metricChecks.flatMap fun mk =>
    allRules.filterMap fun rule =>
      if rule.Condition.Metric != mk.1 then none
      else
        match EvaluateRule na rx rule "numeric" (.vFloat mk.2) with
        | .error _ => none
        | .ok ruleResult =>
          some {
            RuleID := ruleResult.RuleID
            Name := ruleResult.RuleName
            Category := rule.Category
            Severity := ruleResult.Severity
            Metric := mk.1
            Value := formatF2 mk.2
            Threshold := goSprintV ruleResult.ExpectedValue
            Passed := !ruleResult.Passed
            Description := rule.Description
            Remediation := ruleResult.Remediation }

/-- Model of NodeAnalyzer.calculateHealthScore from
internal/analyzer/node/analyzer.go: 100 minus the summed severity deductions
of the failing items, floored at 0; an empty item list short-circuits to 100. -/
def calculateHealthScore (items : List AnalysisItem) : Int :=
  if items.length == 0 then 100
  else
    let totalDeduction := items.foldl (fun acc item =>
      if !item.Passed then
        match deductions.lookup item.Severity with
        | some deduction => acc + deduction
        | none => acc
      else acc) 0
    let score := 100 - totalDeduction
    if score < 0 then 0 else score

end NodeAnalyzer

namespace NodeAnalyzerPrev

/-- Model of the earlier variant of NodeAnalyzer.analyzeResourceMetric kept in
the repository: identical to the current one except that the AnalysisItem
stores the engine's Passed boolean unchanged, with no negation. -/
def analyzeResourceMetric (na : Engine) (rx : Rx) (metricName : String)
    (metric : ResourceMetric) : List AnalysisItem :=
  let allRules := engineGetRules na { Categories := ["node"], Severities := [], Enabled := none }
  let metricChecks := [(metricName ++ "_utilization", metric.Utilization),
                       (metricName ++ "_allocation_rate", metric.AllocationRate)]
  metricChecks.flatMap fun mk =>
    allRules.filterMap fun rule =>
      if rule.Condition.Metric != mk.1 then none
      else
        match EvaluateRule na rx rule "numeric" (.vFloat mk.2) with
        | .error _ => none
        | .ok ruleResult =>
          some {
            RuleID := ruleResult.RuleID
            Name := ruleResult.RuleName
            Category := rule.Category
            Severity := ruleResult.Severity
            Metric := mk.1
            Value := formatF2 mk.2
            Threshold := goSprintV ruleResult.ExpectedValue
            Passed := ruleResult.Passed
            Description := rule.Description
            Remediation := ruleResult.Remediation }

end NodeAnalyzerPrev

namespace PodAnalyzer

/-- Model of PodAnalyzer.calculateHealthScore from
internal/analyzer/pod/analyzer.go, textually the same computation as the node
variant. -/
def calculateHealthScore (items : List AnalysisItem) : Int :=
  if items.length == 0 then 100
  else
    let totalDeduction := items.foldl (fun acc item =>
      if !item.Passed then
        match deductions.lookup item.Severity with
        | some deduction => acc + deduction
        | none => acc
      else acc) 0
    let score := 100 - totalDeduction
    if score < 0 then 0 else score

end PodAnalyzer

/-! Concrete fixtures, mirroring the shipped configs/rules documents. -/

/-- A matcher standing in for an uninterpreted regexp library call; no fixture
below reaches the matches operator. -/
def rxNone : Rx := fun _ _ => .error "regexp not interpreted"

/-- The node-high-cpu rule of configs/rules/node.yaml: cpu_utilization >= 90,
severity critical, enabled. -/
def cpuRule : Rule := {
  ID := "node-high-cpu", Name := "节点CPU使用率过高", Description := "节点CPU使用率过高",
  Category := "node", Severity := "critical",
  Condition := { Metric := "cpu_utilization", Operator := ">=", Threshold := .vInt 90,
                 Thresholds := none, Duration := none },
  Remediation := "考虑增加节点或调整工作负载分布", Enabled := true }

/-- An engine built over a loaded document holding the cpu rule, environment
"prod" as NewEngine defaults it. -/
def engine1 : Engine := {
  loader := { lastModified := 1, config := some {
    APIVersion := "v1", Kind := "RulesConfig",
    Config := { AutoReload := true, ReloadInterval := "5m", Environment := "test" },
    ClusterEnvironments := [("default-cluster", "test")],
    Rules := [cpuRule] } },
  environment := "prod" }

/-- A condition with per-environment thresholds dev:5 and default:9 over a
single threshold of 20. -/
def c2cond : RuleCondition := {
  Metric := "m", Operator := ">=", Threshold := .vInt 20,
  Thresholds := some [("dev", .vInt 5), ("default", .vInt 9)], Duration := none }

/-- The same condition with no per-environment thresholds map at all. -/
def c2nomap : RuleCondition := {
  Metric := "m", Operator := ">=", Threshold := .vInt 20,
  Thresholds := none, Duration := none }

/-- A has_non_empty condition requiring an owner label, threshold shaped as the
map validator receives it. -/
def cond5 : RuleCondition := {
  Metric := "has_labels", Operator := "has_non_empty",
  Threshold := .vMapSS [("owner", "")], Thresholds := none, Duration := none }

/-- A failing critical analysis item. -/
def critFail : AnalysisItem := {
  RuleID := "r1", Name := "n", Category := "node",
  Severity := "critical", Metric := "m", Value := "v", Threshold := "t", Passed := false,
  Description := "", Remediation := "" }

/-- A failing warning analysis item. -/
def warnFail : AnalysisItem := { critFail with Severity := "warning" }

/-- A parsed document whose rules are all structurally complete with supported
operators but whose apiVersion marker is empty. -/
def cfgBadAPI : RulesConfig := {
  APIVersion := "", Kind := "RulesConfig",
  Config := { AutoReload := false, ReloadInterval := "", Environment := "" },
  ClusterEnvironments := [], Rules := [cpuRule] }

/-- The require_owner_label style rule with a two-key label threshold. -/
def rule8 : Rule := {
  ID := "require_owner_label", Name := "必须包含owner标签且值不为空",
  Description := "", Category := "deployment", Severity := "warning",
  Condition := { Metric := "has_labels", Operator := "has_non_empty",
                 Threshold := .vMapSI [("owner", .vStr ""), ("team", .vStr "")],
                 Thresholds := none, Duration := none },
  Remediation := "", Enabled := true }

/-- An actual label map carrying a non-blank owner and no team key. -/
def actual8 : GoValue := .vMapSS [("owner", " a ")]

/-- A loader holding a successfully loaded document. -/
def loaderWithConfig (cfg : RulesConfig) : RuleLoader :=
  { lastModified := 1, config := some cfg }

/-- Error/success discriminator for Except results. -/
def isErr {α : Type} : Except String α → Bool
  | .error _ => true
  | .ok _ => false

/-! Claim theorems. -/

/-- C2: for every RuleCondition and environment, the threshold used in
evaluation — by Engine.getThresholdValue and identically by the selection
block inlined in each validator — is Thresholds[env] when that key exists,
else Thresholds["default"] when that key exists, else the single Threshold
field; concretely, Thresholds dev:5 default:9 over Threshold 20 resolves to 5
under dev and 9 under staging, and a condition without a Thresholds map
resolves to 20. -/
theorem C2_threshold_resolution :
    (∀ c env, numericThreshold c env = getThresholdValue c env
      ∧ stringThreshold c env = getThresholdValue c env
      ∧ booleanThreshold c env = getThresholdValue c env
      ∧ mapThreshold c env = getThresholdValue c env)
    ∧ (∀ c env m t, c.Thresholds = some m → m.lookup env = some t →
        getThresholdValue c env = t)
    ∧ (∀ c env m t, c.Thresholds = some m → m.lookup env = none →
        m.lookup "default" = some t → getThresholdValue c env = t)
    ∧ (∀ c env m, c.Thresholds = some m → m.lookup env = none →
        m.lookup "default" = none → getThresholdValue c env = c.Threshold)
    ∧ (∀ c env, c.Thresholds = none → getThresholdValue c env = c.Threshold)
    ∧ getThresholdValue c2cond "dev" = .vInt 5
    ∧ getThresholdValue c2cond "staging" = .vInt 9
    ∧ getThresholdValue c2nomap "dev" = .vInt 20
    ∧ numericThreshold c2cond "dev" = .vInt 5 := by
  refine ⟨?_, ?_, ?_, ?_, ?_, rfl, rfl, rfl, rfl⟩
  · intro c env
    have h : ∀ f : RuleCondition → String → GoValue,
        (∀ c env, f c env =
          (if thresholdsLen c > 0 then
            match (c.Thresholds.getD []).lookup env with
            | some v => v
            | none =>
              match (c.Thresholds.getD []).lookup "default" with
              | some v => v
              | none => c.Threshold
          else c.Threshold)) → f c env = getThresholdValue c env := by
      intro f hf
      rw [hf]
      rcases hm : c.Thresholds with _ | m
      · simp [getThresholdValue, thresholdsLen, hm]
      · rcases m with _ | ⟨kv, rest⟩
        · simp [getThresholdValue, thresholdsLen, hm]
        · simp [getThresholdValue, thresholdsLen, hm]
    exact ⟨h numericThreshold (fun _ _ => rfl), h stringThreshold (fun _ _ => rfl),
      h booleanThreshold (fun _ _ => rfl), h mapThreshold (fun _ _ => rfl)⟩
  · intro c env m t hm hl
    simp [getThresholdValue, hm, hl]
  · intro c env m t hm hl hd
    simp [getThresholdValue, hm, hl, hd]
  · intro c env m hm hl hd
    simp [getThresholdValue, hm, hl, hd]
  · intro c env hm
    simp [getThresholdValue, hm]

/-- Witness for C2 at the concrete dev-environment condition. -/
theorem C2_threshold_resolution_witness :
    getThresholdValue c2cond "dev" = .vInt 5 :=
  C2_threshold_resolution.2.1 c2cond "dev" [("dev", .vInt 5), ("default", .vInt 9)]
    (.vInt 5) rfl rfl

/-- C5: MapValidator.Validate with operator has_non_empty holds exactly when
every threshold key is present in the actual map with a value that is
non-empty after trimming leading/trailing whitespace; concretely an empty
owner value, a blank owner value and a missing owner key all fail, while a
padded non-blank value passes. -/
theorem C5_has_non_empty :
    (∀ actual expected, validateHasNonEmpty actual expected = true ↔
      ∀ kv ∈ expected, ∃ v, actual.lookup kv.1 = some v ∧ goTrimSpace v ≠ "")
    ∧ mapValidate (.vMapSS [("owner", "")]) cond5 "prod" = .ok false
    ∧ mapValidate (.vMapSS [("owner", "   ")]) cond5 "prod" = .ok false
    ∧ mapValidate (.vMapSS [("owner", " a ")]) cond5 "prod" = .ok true
    ∧ mapValidate (.vMapSS []) cond5 "prod" = .ok false := by
  refine ⟨?_, rfl, rfl, rfl, rfl⟩
  intro actual expected
  simp only [validateHasNonEmpty, List.all_eq_true]
  constructor
  · intro h kv hkv
    have := h kv hkv
    rcases hl : actual.lookup kv.1 with _ | v
    · rw [hl] at this; exact absurd this (by simp)
    · rw [hl] at this
      refine ⟨v, rfl, ?_⟩
      simpa using this
  · intro h kv hkv
    rcases h kv hkv with ⟨v, hl, hv⟩
    rw [hl]
    simpa using hv

/-- Witness for C5 at a concrete present, non-blank label map. -/
theorem C5_has_non_empty_witness :
    validateHasNonEmpty [("owner", " a ")] [("owner", "")] = true :=
  (C5_has_non_empty.1 [("owner", " a ")] [("owner", "")]).mpr
    (fun kv hkv => by
      have hk : kv = ("owner", "") := by simpa using hkv
      subst hk
      exact ⟨" a ", rfl, by decide⟩)

/-- C9: the map validator's == and contains operators compute the same
function — every threshold key present in the actual map with an equal value,
extra actual keys ignored (shown by the concrete extra-key example). -/
theorem C9_equals_contains_agree :
    (∀ actual expected, validateEquals actual expected = validateContains actual expected)
    ∧ (∀ actual expected, validateEquals actual expected = true ↔
        ∀ kv ∈ expected, actual.lookup kv.1 = some kv.2)
    ∧ validateContains [("a", "1"), ("b", "2")] [("a", "1")] = true := by
  refine ⟨fun _ _ => rfl, ?_, rfl⟩
  intro actual expected
  simp only [validateEquals, List.all_eq_true]
  constructor
  · intro h kv hkv
    have := h kv hkv
    rcases hl : actual.lookup kv.1 with _ | v
    · rw [hl] at this; exact absurd this (by simp)
    · rw [hl] at this
      simpa using this
  · intro h kv hkv
    rw [h kv hkv]
    simp

/-- Witness for C9 at a concrete matching pair of maps. -/
theorem C9_equals_contains_agree_witness :
    validateEquals [("x", "1")] [("x", "1")] = true :=
  (C9_equals_contains_agree.2.1 [("x", "1")] [("x", "1")]).mpr
    (fun kv hkv => by
      have hk : kv = ("x", "1") := by simpa using hkv
      subst hk
      rfl)

/-- Spec-side penalty of a single analysis item: a fixed deduction by severity
for a failing item (critical 20, warning 10, info 5), nothing otherwise. -/
def specPenalty (item : AnalysisItem) : Int :=
  if item.Passed then 0
  else if item.Severity = "critical" then 20
  else if item.Severity = "warning" then 10
  else if item.Severity = "info" then 5
  else 0

/-- Spec-side health score as the claim words it: max(0, 100 minus the summed
per-item penalties). -/
def healthScoreSpec (items : List AnalysisItem) : Int :=
  max 0 (100 - (items.map specPenalty).sum)

lemma specPenalty_nonneg (item : AnalysisItem) : 0 ≤ specPenalty item := by
  unfold specPenalty
  split_ifs <;> norm_num

lemma lookup_deductions (sev : String) :
    deductions.lookup sev =
      if sev = "critical" then some 20
      else if sev = "warning" then some 10
      else if sev = "info" then some 5
      else none := by
  by_cases h1 : sev = "critical"
  · subst h1; rfl
  · by_cases h2 : sev = "warning"
    · subst h2; rfl
    · by_cases h3 : sev = "info"
      · subst h3; rfl
      · have e1 : (sev == "critical") = false := by
          cases hb : (sev == "critical")
          · rfl
          · exact absurd (eq_of_beq hb) h1
        have e2 : (sev == "warning") = false := by
          cases hb : (sev == "warning")
          · rfl
          · exact absurd (eq_of_beq hb) h2
        have e3 : (sev == "info") = false := by
          cases hb : (sev == "info")
          · rfl
          · exact absurd (eq_of_beq hb) h3
        simp [deductions, List.lookup, e1, e2, e3, h1, h2, h3]

lemma deduction_step (acc : Int) (item : AnalysisItem) :
    (if !item.Passed then
      match deductions.lookup item.Severity with
      | some deduction => acc + deduction
      | none => acc
     else acc) = acc + specPenalty item := by
  cases hp : item.Passed
  · by_cases h1 : item.Severity = "critical"
    · rw [lookup_deductions]; simp [hp, specPenalty, h1]
    · by_cases h2 : item.Severity = "warning"
      · rw [lookup_deductions]; simp [hp, specPenalty, h1, h2]
      · by_cases h3 : item.Severity = "info"
        · rw [lookup_deductions]; simp [hp, specPenalty, h1, h2, h3]
        · rw [lookup_deductions]; simp [hp, specPenalty, h1, h2, h3]
  · simp [hp, specPenalty]

lemma foldl_deductions (items : List AnalysisItem) : ∀ acc : Int,
    items.foldl (fun acc item =>
      if !item.Passed then
        match deductions.lookup item.Severity with
        | some deduction => acc + deduction
        | none => acc
      else acc) acc = acc + (items.map specPenalty).sum := by
  induction items with
  | nil => intro acc; simp
  | cons hd tl ih =>
    intro acc
    simp only [List.foldl_cons, List.map_cons, List.sum_cons]
    rw [deduction_step, ih]
    ring

lemma penalties_sum_nonneg (items : List AnalysisItem) :
    0 ≤ (items.map specPenalty).sum := by
  apply List.sum_nonneg
  intro x hx
  rcases List.mem_map.1 hx with ⟨it, _, rfl⟩
  exact specPenalty_nonneg it

lemma calcHealthScore_eq_spec (items : List AnalysisItem) :
    NodeAnalyzer.calculateHealthScore items = healthScoreSpec items := by
  rcases items with _ | ⟨hd, tl⟩
  · decide
  · have hnn := penalties_sum_nonneg (hd :: tl)
    simp only [NodeAnalyzer.calculateHealthScore, healthScoreSpec]
    rw [if_neg (by simp)]
    rw [foldl_deductions]
    rw [max_def]
    simp only [zero_add]
    split_ifs <;> omega

/-- C3: both calculateHealthScore variants compute max(0, 100 minus the summed
per-item severity penalties) with every failing item counted independently;
zero failing items give 100, one critical failure 80, critical plus warning
70, ten critical failures 0, and the score always lies in the closed interval
from 0 to 100. -/
theorem C3_health_score :
    (∀ items, NodeAnalyzer.calculateHealthScore items = healthScoreSpec items)
    ∧ (∀ items, PodAnalyzer.calculateHealthScore items = healthScoreSpec items)
    ∧ NodeAnalyzer.calculateHealthScore [] = 100
    ∧ NodeAnalyzer.calculateHealthScore [critFail] = 80
    ∧ NodeAnalyzer.calculateHealthScore [critFail, warnFail] = 70
    ∧ NodeAnalyzer.calculateHealthScore (List.replicate 10 critFail) = 0
    ∧ (∀ items, 0 ≤ NodeAnalyzer.calculateHealthScore items
        ∧ NodeAnalyzer.calculateHealthScore items ≤ 100) := by
  refine ⟨calcHealthScore_eq_spec, fun items => calcHealthScore_eq_spec items,
    rfl, by decide, by decide, by decide, ?_⟩
  intro items
  rw [calcHealthScore_eq_spec]
  unfold healthScoreSpec
  constructor
  · exact le_max_left 0 _
  · have := penalties_sum_nonneg items
    rw [max_def]
    split_ifs <;> omega

/-! Helpers and fixtures for the filter claim. -/

/-- The category-only node filter. -/
def fNode : RuleFilter := { Categories := ["node"], Severities := [], Enabled := none }

lemma matchesFilter_iff (r : Rule) (f : RuleFilter) :
    matchesFilter r f = true ↔
      (f.Categories = [] ∨ r.Category ∈ f.Categories)
      ∧ (f.Severities = [] ∨ r.Severity ∈ f.Severities)
      ∧ (f.Enabled = none ∨ f.Enabled = some r.Enabled) := by
  unfold matchesFilter
  rw [Bool.and_eq_true, Bool.and_eq_true]
  rcases hen : f.Enabled with _ | b
  · simp
  · simp
    constructor
    · rintro ⟨⟨h1, h2⟩, h3⟩
      exact ⟨h1, h2, h3.symm⟩
    · rintro ⟨h1, h2, h3⟩
      exact ⟨⟨h1, h2⟩, h3.symm⟩

/-- C6: over any loaded rule set, GetRules returns exactly the rules matching
AND across the three filter dimensions with OR within a dimension, an empty
list or nil pointer leaving its dimension unconstrained; the empty filter
returns every loaded rule. -/
theorem C6_get_rules_filter :
    (∀ cfg f r, r ∈ getRules (loaderWithConfig cfg) f ↔
      r ∈ cfg.Rules
        ∧ (f.Categories = [] ∨ r.Category ∈ f.Categories)
        ∧ (f.Severities = [] ∨ r.Severity ∈ f.Severities)
        ∧ (f.Enabled = none ∨ f.Enabled = some r.Enabled))
    ∧ (∀ cfg, getRules (loaderWithConfig cfg)
        { Categories := [], Severities := [], Enabled := none } = cfg.Rules) := by
  constructor
  · intro cfg f r
    show r ∈ cfg.Rules.filter (fun x => matchesFilter x f) ↔ _
    rw [List.mem_filter]
    exact and_congr_right fun _ => matchesFilter_iff r f
  · intro cfg
    show cfg.Rules.filter _ = cfg.Rules
    apply List.filter_eq_self.mpr
    intro a _
    rfl

/-- Witness for C6: the node cpu rule is returned by the node-category filter
over a document containing it. -/
theorem C6_get_rules_filter_witness :
    cpuRule ∈ getRules (loaderWithConfig cfgBadAPI) fNode :=
  (C6_get_rules_filter.1 cfgBadAPI fNode cpuRule).mpr
    ⟨by simp [cfgBadAPI], Or.inr (by decide), Or.inl rfl, Or.inl rfl⟩

lemma loadRules_err_state (rl : RuleLoader) (stat : StatResult) (doc : ReadOutcome) :
    isErr (loadRules rl stat doc).2 = true → (loadRules rl stat doc).1 = rl := by
  rcases stat with _ | _ | t
  · intro _; rfl
  · intro _; rfl
  · by_cases hfast : (rl.config.isSome && t == rl.lastModified) = true
    · simp [loadRules, hfast, isErr]
    · rcases doc with _ | _ | cfg
      · simp [loadRules, hfast]
      · simp [loadRules, hfast]
      · rcases hv : validateConfig cfg with e | u
        · simp [loadRules, hfast, hv]
        · simp [loadRules, hfast, hv, isErr]

/-- C10: a LoadRules call that fails leaves the loader state (config and
last-modified marker) unchanged, so GetRules still serves the last successful
load, and on a never-loaded loader GetRules returns the empty result rather
than failing. -/
theorem C10_failed_load_keeps_state :
    (∀ rl stat doc, isErr (loadRules rl stat doc).2 = true →
      (loadRules rl stat doc).1 = rl)
    ∧ (∀ rl stat doc f, isErr (loadRules rl stat doc).2 = true →
        getRules (loadRules rl stat doc).1 f = getRules rl f)
    ∧ (∀ f, getRules loaderInit f = []) :=
  ⟨loadRules_err_state,
   fun rl stat doc f h => by rw [loadRules_err_state rl stat doc h],
   fun _ => rfl⟩

/-- Witness for C10 at a concrete missing-file load over the fresh loader. -/
theorem C10_failed_load_keeps_state_witness :
    (loadRules loaderInit .missing .readFail).1 = loaderInit :=
  C10_failed_load_keeps_state.1 loaderInit .missing .readFail rfl

/-- A rule-level structural defect as the claim enumerates them: a missing
required field, no threshold at all, or an unsupported operator. -/
def ruleDefectB (r : Rule) : Bool :=
  r.ID == "" || r.Name == "" || r.Category == "" || r.Severity == "" ||
  r.Condition.Metric == "" || r.Condition.Operator == "" ||
  (isNilValue r.Condition.Threshold && (thresholdsLen r.Condition == 0)) ||
  !isValidOperator r.Condition.Operator

lemma validateRule_err_iff (i : Nat) (r : Rule) :
    isErr (validateRule i r) = true ↔ ruleDefectB r = true := by
  cases h1 : (r.ID == "") <;>
  cases h2 : (r.Name == "") <;>
  cases h3 : (r.Category == "") <;>
  cases h4 : (r.Severity == "") <;>
  cases h5 : (r.Condition.Metric == "") <;>
  cases h6 : (r.Condition.Operator == "") <;>
  cases h7 : (isNilValue r.Condition.Threshold && (thresholdsLen r.Condition == 0)) <;>
  cases h8 : isValidOperator r.Condition.Operator <;>
  simp [validateRule, ruleDefectB, isErr, h1, h2, h3, h4, h5, h6, h7, h8]

lemma validateRulesFrom_ok (rules : List Rule)
    (h : ∀ r ∈ rules, ruleDefectB r = false) :
    ∀ i, validateRulesFrom i rules = .ok () := by
  induction rules with
  | nil => intro i; rfl
  | cons hd tl ih =>
    intro i
    have hhd : ruleDefectB hd = false := h hd (by simp)
    have hv : isErr (validateRule i hd) = false := by
      cases hI : isErr (validateRule i hd)
      · rfl
      · exact absurd ((validateRule_err_iff i hd).mp hI) (by simp [hhd])
    rcases hE : validateRule i hd with e | u
    · rw [hE] at hv; simp [isErr] at hv
    · unfold validateRulesFrom
      rw [hE]
      exact ih (fun r hr => h r (by simp [hr])) (i + 1)

lemma validateRulesFrom_err (r : Rule) (hdef : ruleDefectB r = true) :
    ∀ (rules : List Rule) (i : Nat), r ∈ rules →
      isErr (validateRulesFrom i rules) = true := by
  intro rules
  induction rules with
  | nil => intro i h; cases h
  | cons x xs ih =>
    intro i hr
    unfold validateRulesFrom
    rcases hE : validateRule i x with e | u
    · simp [hE, isErr]
    · simp only [hE]
      rcases List.mem_cons.1 hr with h | h
      · have ht : isErr (validateRule i x) = true :=
          (validateRule_err_iff i x).mpr (h ▸ hdef)
        rw [hE] at ht
        simp [isErr] at ht
      · exact ih (i + 1) h

lemma validateConfig_err_of_rule (cfg : RulesConfig) (r : Rule)
    (hr : r ∈ cfg.Rules) (hdef : ruleDefectB r = true) :
    isErr (validateConfig cfg) = true := by
  unfold validateConfig
  split_ifs
  · rfl
  · rfl
  · rfl
  · exact validateRulesFrom_err r hdef cfg.Rules 1 hr

lemma validateConfig_ok (cfg : RulesConfig) (hA : cfg.APIVersion ≠ "")
    (hK : cfg.Kind = "RulesConfig")
    (hrules : ∀ r ∈ cfg.Rules, ruleDefectB r = false) :
    validateConfig cfg = .ok () := by
  unfold validateConfig
  rw [if_neg (by simp [hA]), if_neg (by simp [hK]), if_neg (by simp [hK])]
  exact validateRulesFrom_ok cfg.Rules hrules 1

/-- C7 counterexample: the document cfgBadAPI is present and parses, every one
of its rules is structurally complete with a supported operator (its rule list
validates cleanly on its own), yet LoadRules fails — because its apiVersion
marker is empty, a defect outside the claim's list. -/
theorem C7_counterexample :
    isErr (loadRules loaderInit (.modTime 1) (.parsed cfgBadAPI)).2 = true
    ∧ validateRulesFrom 1 cfgBadAPI.Rules = .ok ()
    ∧ ruleDefectB cpuRule = false :=
  ⟨rfl, rfl, rfl⟩

/-- C7 (amended): LoadRules fails on a missing rules file, a stat failure, an
unreadable or malformed document, any rule missing a required field or
carrying an unsupported operator, and additionally on a document whose
apiVersion is empty or whose kind is not exactly "RulesConfig"; a parsed
document whose markers are in order and whose rules are all defect-free loads
successfully. -/
theorem C7_load_validation :
    (∀ rl doc, isErr (loadRules rl .missing doc).2 = true)
    ∧ (∀ rl doc, isErr (loadRules rl .statError doc).2 = true)
    ∧ (∀ rl t, rl.config = none →
        isErr (loadRules rl (.modTime t) .readFail).2 = true)
    ∧ (∀ rl t, rl.config = none →
        isErr (loadRules rl (.modTime t) .parseFail).2 = true)
    ∧ (∀ rl t cfg r, rl.config = none → r ∈ cfg.Rules → ruleDefectB r = true →
        isErr (loadRules rl (.modTime t) (.parsed cfg)).2 = true)
    ∧ (∀ rl t cfg, rl.config = none →
        (cfg.APIVersion = "" ∨ cfg.Kind ≠ "RulesConfig") →
        isErr (loadRules rl (.modTime t) (.parsed cfg)).2 = true)
    ∧ (∀ rl t cfg, cfg.APIVersion ≠ "" → cfg.Kind = "RulesConfig" →
        (∀ r ∈ cfg.Rules, ruleDefectB r = false) →
        isErr (loadRules rl (.modTime t) (.parsed cfg)).2 = false) := by
  refine ⟨fun rl doc => rfl, fun rl doc => rfl, ?_, ?_, ?_, ?_, ?_⟩
  · intro rl t hc
    simp [loadRules, hc, isErr]
  · intro rl t hc
    simp [loadRules, hc, isErr]
  · intro rl t cfg r hc hr hdef
    have hv : isErr (validateConfig cfg) = true := validateConfig_err_of_rule cfg r hr hdef
    rcases hV : validateConfig cfg with e | u
    · simp [loadRules, hc, hV, isErr]
    · rw [hV] at hv; simp [isErr] at hv
  · intro rl t cfg hc hbad
    have hv : isErr (validateConfig cfg) = true := by
      unfold validateConfig
      rcases hbad with hA | hK
      · simp [hA, isErr]
      · by_cases hA : (cfg.APIVersion == "") = true
        · simp [hA, isErr]
        · by_cases hK0 : (cfg.Kind == "") = true
          · simp [hA, hK0, isErr]
          · simp only [if_neg hA, if_neg hK0]
            rw [if_pos (by simpa using hK)]
            rfl
    rcases hV : validateConfig cfg with e | u
    · simp [loadRules, hc, hV, isErr]
    · rw [hV] at hv; simp [isErr] at hv
  · intro rl t cfg hA hK hrules
    by_cases hfast : (rl.config.isSome && t == rl.lastModified) = true
    · simp [loadRules, hfast, isErr]
    · simp [loadRules, hfast, validateConfig_ok cfg hA hK hrules, isErr]

/-- Witness for C7 at the well-formed single-rule document: the load succeeds. -/
theorem C7_load_validation_witness :
    isErr (loadRules loaderInit (.modTime 1)
      (.parsed { cfgBadAPI with APIVersion := "v1" })).2 = false :=
  C7_load_validation.2.2.2.2.2.2 loaderInit 1 { cfgBadAPI with APIVersion := "v1" }
    (by decide) rfl
    (fun r hr => by
      have hq : r = cpuRule := by simpa [cfgBadAPI] using hr
      subst hq
      rfl)

/-- C8 counterexample: evaluating the two-key has_non_empty rule against an
actual map whose owner label is present and non-blank (only team is missing)
produces a failure message that still names owner — the message enumerates the
full threshold key set, not the specific missing or blank keys. -/
theorem C8_counterexample :
    ((EvaluateRule engine1 rxNone rule8 "map" actual8).toOption.map (·.Passed)
      = some false)
    ∧ ((EvaluateRule engine1 rxNone rule8 "map" actual8).toOption.map
        (fun r => goContains r.Message "owner") = some true)
    ∧ List.lookup "owner" [("owner", " a ")] = some " a "
    ∧ goTrimSpace " a " ≠ "" :=
  ⟨rfl, rfl, rfl, by decide⟩

/-- C8 (amended): the failure Message the engine builds for has_non_empty
names every key of the rule's default Threshold map (when that threshold is a
string-keyed interface map), independently of which keys are actually missing
or blank in the actual value; in the concrete two-key scenario the message
names both owner and team although only team is missing. -/
theorem C8_message_keys :
    (∀ (rule : Rule) (fv ft : String) (m : List (String × GoValue)),
      rule.Condition.Operator = "has_non_empty" →
      rule.Condition.Threshold = .vMapSI m →
      formatResultMessage rule false fv ft =
        rule.Name ++ ": 检查失败, 值 " ++ fv ++ " " ++ hasNonEmptyPhrase (m.map Prod.fst))
    ∧ ((EvaluateRule engine1 rxNone rule8 "map" actual8).toOption.map
        (fun r => goContains r.Message "team") = some true) := by
  constructor
  · intro rule fv ft m hop ht
    simp [formatResultMessage, hop, ht, hasNonEmptyMessageKeys]
  · rfl

/-- Witness for C8 at the concrete two-key rule. -/
theorem C8_message_keys_witness :
    formatResultMessage rule8 false "v" "t" =
      rule8.Name ++ ": 检查失败, 值 " ++ "v" ++ " " ++
        hasNonEmptyPhrase (([("owner", GoValue.vStr ""), ("team", GoValue.vStr "")]).map
          Prod.fst) :=
  C8_message_keys.1 rule8 "v" "t" [("owner", .vStr ""), ("team", .vStr "")] rfl rfl

/-- C1 counterexample: in the regression scenario (cpu_utilization observed at
95 against the enabled node rule operator >= threshold 90 severity critical)
the engine returns Passed=true — its Passed is the raw comparison outcome, so
true here means the alert condition holds — and the repository's earlier
node-analyzer variant stores that boolean unchanged, yielding an AnalysisItem
with Passed=true, not the claimed false. -/
theorem C1_counterexample :
    ((EvaluateRule engine1 rxNone cpuRule "numeric" (.vFloat 95)).toOption.map (·.Passed)
      = some true)
    ∧ (NodeAnalyzerPrev.analyzeResourceMetric engine1 rxNone "cpu"
        { Utilization := 95, AllocationRate := 0 }).map (·.Passed) = [true] :=
  ⟨rfl, rfl⟩

/-- C1 (amended): the current node analyzer stores the negation of the
engine's Passed on every item it produces — it equals the earlier non-negating
variant with every stored Passed flipped — and in the concrete scenario the
current analyzer yields exactly one item, for the critical rule, with
health-semantics Passed=false. -/
theorem C1_passed_inversion :
    (∀ (na : Engine) (rx : Rx) (metricName : String) (metric : ResourceMetric),
      NodeAnalyzer.analyzeResourceMetric na rx metricName metric =
        (NodeAnalyzerPrev.analyzeResourceMetric na rx metricName metric).map
          (fun it => { it with Passed := !it.Passed }))
    ∧ (NodeAnalyzer.analyzeResourceMetric engine1 rxNone "cpu"
        { Utilization := 95, AllocationRate := 0 }).map (·.Passed) = [false]
    ∧ (NodeAnalyzer.analyzeResourceMetric engine1 rxNone "cpu"
        { Utilization := 95, AllocationRate := 0 }).map (·.Severity) = ["critical"] := by
  refine ⟨?_, rfl, rfl⟩
  intro na rx metricName metric
  simp only [NodeAnalyzer.analyzeResourceMetric, NodeAnalyzerPrev.analyzeResourceMetric]
  rw [List.map_flatMap]
  congr 1
  funext mk
  rw [List.map_filterMap]
  congr 1
  funext rule
  cases hm : (rule.Condition.Metric != mk.1)
  · rw [if_neg (by simp [hm]), if_neg (by simp [hm])]
    rcases hE : EvaluateRule na rx rule "numeric" (.vFloat mk.2) with e | res
    · rfl
    · rfl
  · rw [if_pos (by simp [hm]), if_pos (by simp [hm])]
    rfl

/-! Error-condition lemmas for the four validators. -/

lemma numericValidate_err_coerce (actual : GoValue) (c : RuleCondition) (env : String)
    (h : isErr (toFloat64 actual) = true ∨
      isErr (toFloat64 (numericThreshold c env)) = true) :
    isErr (numericValidate actual c env) = true := by
  unfold numericValidate
  rcases hA : toFloat64 actual with eA | a
  · rfl
  · rcases hT : toFloat64 (numericThreshold c env) with eT | t
    · rfl
    · rcases h with h | h
      · rw [hA] at h; simp [isErr] at h
      · rw [hT] at h; simp [isErr] at h

lemma numericValidate_err_op (actual : GoValue) (c : RuleCondition) (env : String)
    (h : c.Operator ∉ ([">", ">=", "<", "<=", "==", "!="] : List String)) :
    isErr (numericValidate actual c env) = true := by
  unfold numericValidate
  split
  · rfl
  · split
    · rfl
    · split <;> first | rfl | (exfalso; apply h; simp_all)

lemma stringValidate_err_coerce (rx : Rx) (actual : GoValue) (c : RuleCondition)
    (env : String)
    (h : goToString actual = none ∨ goToString (stringThreshold c env) = none) :
    isErr (stringValidate rx actual c env) = true := by
  unfold stringValidate
  rcases hA : goToString actual with _ | a
  · rfl
  · rcases hT : goToString (stringThreshold c env) with _ | t
    · rfl
    · rcases h with h | h
      · rw [hA] at h; simp at h
      · rw [hT] at h; simp at h

lemma stringValidate_err_op (rx : Rx) (actual : GoValue) (c : RuleCondition)
    (env : String)
    (h : c.Operator ∉ (["==", "!=", "contains", "matches"] : List String)) :
    isErr (stringValidate rx actual c env) = true := by
  unfold stringValidate
  split
  · rfl
  · split
    · rfl
    · split <;> first | rfl | (exfalso; apply h; simp_all)

lemma booleanValidate_err_coerce (actual : GoValue) (c : RuleCondition) (env : String)
    (h : toBool actual = none ∨ toBool (booleanThreshold c env) = none) :
    isErr (booleanValidate actual c env) = true := by
  unfold booleanValidate
  rcases hA : toBool actual with _ | a
  · rfl
  · rcases hT : toBool (booleanThreshold c env) with _ | t
    · rfl
    · rcases h with h | h
      · rw [hA] at h; simp at h
      · rw [hT] at h; simp at h

lemma booleanValidate_err_op (actual : GoValue) (c : RuleCondition) (env : String)
    (h : c.Operator ∉ (["==", "!="] : List String)) :
    isErr (booleanValidate actual c env) = true := by
  unfold booleanValidate
  split
  · rfl
  · split
    · rfl
    · split <;> first | rfl | (exfalso; apply h; simp_all)

lemma mapValidate_err_actual (actual : GoValue) (c : RuleCondition) (env : String)
    (h : ∀ m, actual ≠ .vMapSS m) :
    isErr (mapValidate actual c env) = true := by
  unfold mapValidate
  cases actual <;> first | rfl | exact absurd rfl (h _)

lemma mapValidate_err_threshold (actual : GoValue) (c : RuleCondition) (env : String)
    (h : isErr (convertToStringMap (mapThreshold c env)) = true) :
    isErr (mapValidate actual c env) = true := by
  unfold mapValidate
  cases actual <;> try rfl
  rcases hC : convertToStringMap (mapThreshold c env) with e | exp
  · rfl
  · rw [hC] at h; simp [isErr] at h

lemma mapValidate_err_op (actual : GoValue) (c : RuleCondition) (env : String)
    (h : c.Operator ∉ (["==", "contains", "has_non_empty"] : List String)) :
    isErr (mapValidate actual c env) = true := by
  unfold mapValidate
  cases actual <;> try rfl
  split
  · split
    · rfl
    · split <;> first | rfl | (exfalso; apply h; simp_all)
  · rename_i x
    exact (x _ rfl).elim

lemma getValidator_err (mt : String)
    (h : mt ∉ (["numeric", "string", "boolean", "map"] : List String)) :
    getValidator mt = .error ("未知的指标类型: " ++ mt) := by
  have h1 : mt ≠ "numeric" := fun hh => h (by simp [hh])
  have h2 : mt ≠ "string" := fun hh => h (by simp [hh])
  have h3 : mt ≠ "boolean" := fun hh => h (by simp [hh])
  have h4 : mt ≠ "map" := fun hh => h (by simp [hh])
  unfold getValidator
  rw [if_neg (by simpa using h1), if_neg (by simpa using h2),
    if_neg (by simpa using h3), if_neg (by simpa using h4)]

lemma evaluateRule_err_of_validate (e : Engine) (rx : Rx) (rule : Rule)
    (mt : String) (actual : GoValue) (vk : ValidatorKind)
    (hv : getValidator mt = .ok vk)
    (h : isErr (validatorValidate rx vk actual rule.Condition e.environment) = true) :
    isErr (EvaluateRule e rx rule mt actual) = true := by
  unfold EvaluateRule
  cases hEn : rule.Enabled
  · rfl
  · simp only [hv, Bool.not_true, Bool.false_eq_true, if_false]
    rcases hV : validatorValidate rx vk actual rule.Condition e.environment with err | passed
    · rfl
    · rw [hV] at h; simp [isErr] at h

/-- C4: EvaluateRule is a total function of its inputs (the model never
panics) and returns an error — no RuleResult — whenever the rule is disabled,
the value-kind has no registered validator, the actual value or the resolved
threshold cannot be coerced to the selected validator's representation, or the
operator is unsupported by the selected validator. -/
theorem C4_evaluate_rule_errors :
    ∀ (e : Engine) (rx : Rx) (rule : Rule) (metricType : String) (actual : GoValue),
      (rule.Enabled = false → isErr (EvaluateRule e rx rule metricType actual) = true)
      ∧ (metricType ∉ (["numeric", "string", "boolean", "map"] : List String) →
          isErr (EvaluateRule e rx rule metricType actual) = true)
      ∧ (metricType = "numeric" →
          (isErr (toFloat64 actual) = true ∨
            isErr (toFloat64 (numericThreshold rule.Condition e.environment)) = true) →
          isErr (EvaluateRule e rx rule metricType actual) = true)
      ∧ (metricType = "numeric" →
          rule.Condition.Operator ∉ ([">", ">=", "<", "<=", "==", "!="] : List String) →
          isErr (EvaluateRule e rx rule metricType actual) = true)
      ∧ (metricType = "string" →
          (goToString actual = none ∨
            goToString (stringThreshold rule.Condition e.environment) = none) →
          isErr (EvaluateRule e rx rule metricType actual) = true)
      ∧ (metricType = "string" →
          rule.Condition.Operator ∉ (["==", "!=", "contains", "matches"] : List String) →
          isErr (EvaluateRule e rx rule metricType actual) = true)
      ∧ (metricType = "boolean" →
          (toBool actual = none ∨
            toBool (booleanThreshold rule.Condition e.environment) = none) →
          isErr (EvaluateRule e rx rule metricType actual) = true)
      ∧ (metricType = "boolean" →
          rule.Condition.Operator ∉ (["==", "!="] : List String) →
          isErr (EvaluateRule e rx rule metricType actual) = true)
      ∧ (metricType = "map" →
          ((∀ m, actual ≠ GoValue.vMapSS m) ∨
            isErr (convertToStringMap (mapThreshold rule.Condition e.environment)) = true) →
          isErr (EvaluateRule e rx rule metricType actual) = true)
      ∧ (metricType = "map" →
          rule.Condition.Operator ∉ (["==", "contains", "has_non_empty"] : List String) →
          isErr (EvaluateRule e rx rule metricType actual) = true) := by
  intro e rx rule metricType actual
  refine ⟨?_, ?_, ?_, ?_, ?_, ?_, ?_, ?_, ?_, ?_⟩
  · intro h
    simp [EvaluateRule, h, isErr]
  · intro h
    cases hEn : rule.Enabled
    · simp [EvaluateRule, hEn, isErr]
    · simp [EvaluateRule, hEn, getValidator_err metricType h, isErr]
  · intro hmt h
    subst hmt
    exact evaluateRule_err_of_validate e rx rule "numeric" actual .vkNumeric rfl
      (numericValidate_err_coerce actual rule.Condition e.environment h)
  · intro hmt h
    subst hmt
    exact evaluateRule_err_of_validate e rx rule "numeric" actual .vkNumeric rfl
      (numericValidate_err_op actual rule.Condition e.environment h)
  · intro hmt h
    subst hmt
    exact evaluateRule_err_of_validate e rx rule "string" actual .vkString rfl
      (stringValidate_err_coerce rx actual rule.Condition e.environment h)
  · intro hmt h
    subst hmt
    exact evaluateRule_err_of_validate e rx rule "string" actual .vkString rfl
      (stringValidate_err_op rx actual rule.Condition e.environment h)
  · intro hmt h
    subst hmt
    exact evaluateRule_err_of_validate e rx rule "boolean" actual .vkBoolean rfl
      (booleanValidate_err_coerce actual rule.Condition e.environment h)
  · intro hmt h
    subst hmt
    exact evaluateRule_err_of_validate e rx rule "boolean" actual .vkBoolean rfl
      (booleanValidate_err_op actual rule.Condition e.environment h)
  · intro hmt h
    subst hmt
    rcases h with h | h
    · exact evaluateRule_err_of_validate e rx rule "map" actual .vkMap rfl
        (mapValidate_err_actual actual rule.Condition e.environment h)
    · exact evaluateRule_err_of_validate e rx rule "map" actual .vkMap rfl
        (mapValidate_err_threshold actual rule.Condition e.environment h)
  · intro hmt h
    subst hmt
    exact evaluateRule_err_of_validate e rx rule "map" actual .vkMap rfl
      (mapValidate_err_op actual rule.Condition e.environment h)

/-- The cpu rule with its enabled flag cleared. -/
def disabledRule : Rule := { cpuRule with Enabled := false }

/-- Witness for C4: a disabled rule, an unregistered value-kind, an
uncoercible actual value and an unsupported operator each produce an error at
concrete inputs. -/
theorem C4_evaluate_rule_errors_witness :
    isErr (EvaluateRule engine1 rxNone disabledRule "numeric" (.vFloat 1)) = true
    ∧ isErr (EvaluateRule engine1 rxNone cpuRule "nope" (.vFloat 1)) = true
    ∧ isErr (EvaluateRule engine1 rxNone cpuRule "numeric" .vNil) = true
    ∧ isErr (EvaluateRule engine1 rxNone cpuRule "boolean" (.vBool true)) = true :=
  ⟨(C4_evaluate_rule_errors engine1 rxNone disabledRule "numeric" (.vFloat 1)).1 rfl,
   (C4_evaluate_rule_errors engine1 rxNone cpuRule "nope" (.vFloat 1)).2.1 (by decide),
   (C4_evaluate_rule_errors engine1 rxNone cpuRule "numeric" .vNil).2.2.1 rfl
     (Or.inl rfl),
   (C4_evaluate_rule_errors engine1 rxNone cpuRule "boolean" (.vBool true)).2.2.2.2.2.2.2.1
     rfl (by decide)⟩

end KRI
